import Mathlib

/-!
Verification development for the displacement/precipitation dashboard
(src/app_streamlit.py). The ingestion and normalization pipeline —
format detection, Excel-serial date conversion, numeric coercion,
sorting, the cumulative column, the date-range filter and the
statistics calculator — is embedded shallowly below; machine floats of
the original are modelled as exact rationals, with missing values (NaN
and NaT) as `none`.
-/

attribute [local semireducible] Rat.add Rat.mul Rat.sub Rat.inv Rat.ofScientific

/-- One CSV field after pandas `read_csv` type inference: a missing field
(NaN), a numeric field (held as the exact rational its text denotes), or
other text. -/
inductive Cell
  | missing
  | num (q : ℚ)
  | str (s : String)
deriving DecidableEq

instance : Inhabited Cell := ⟨Cell.missing⟩

/-- Field `i` of a row; pandas pads a short row with NaN. -/
def getCell (r : List Cell) (i : Nat) : Cell := r.getD i Cell.missing

/-- One cell under `pd.to_numeric(..., errors='coerce')`: a numeric cell
keeps its value (numeric-looking text is represented as `Cell.num`),
anything else becomes missing. The standard-format path reads its value
cells through the same map. -/
def cellToVal : Cell → Option ℚ
  | Cell.num q => some q
  | _ => none

/-- Whether a cell is missing (`isna`). -/
def cellIsMissing : Cell → Bool
  | Cell.missing => true
  | _ => false

/-- Calendar date (year, month, day) of a day count relative to 1970-01-01,
by the standard civil-from-days algorithm shared by date libraries. -/
def civilFromDays (z0 : Int) : Int × Nat × Nat :=
  let z := z0 + 719468
  let era := z.ediv 146097
  let doe := (z.emod 146097).toNat
  let yoe := (doe - doe / 1460 + doe / 36524 - doe / 146096) / 365
  let y := (yoe : Int) + era * 400
  let doy := doe - (365 * yoe + yoe / 4 - yoe / 100)
  let mp := (5 * doy + 2) / 153
  let d := doy - (153 * mp + 2) / 5 + 1
  let m := if mp < 10 then mp + 3 else mp - 9
  (if m ≤ 2 then y + 1 else y, m, d)

/-- Day count relative to 1970-01-01 of a civil date (days-from-civil). -/
def daysFromCivil (y : Int) (m d : Nat) : Int :=
  let y1 := if m ≤ 2 then y - 1 else y
  let era := y1.ediv 400
  let yoe := (y1 - era * 400).toNat
  let doy := (153 * (if 2 < m then m - 3 else m + 9) + 2) / 5 + d - 1
  let doe := yoe * 365 + yoe / 4 - yoe / 100 + doy
  era * 146097 + (doe : Int) - 719468

/-- Split a character list at a separator character. -/
def chSplit (sep : Char) : List Char → List (List Char)
  | [] => [[]]
  | c :: cs =>
    if c = sep then [] :: chSplit sep cs
    else
      match chSplit sep cs with
      | [] => [[c]]
      | g :: gs => (c :: g) :: gs

/-- Value of a decimal digit character. -/
def digitVal (c : Char) : Option Nat :=
  if '0' ≤ c ∧ c ≤ '9' then some (c.toNat - 48) else none

/-- Accumulate decimal digits; any other character fails. -/
def parseNatAux : List Char → Nat → Option Nat
  | [], acc => some acc
  | c :: cs, acc =>
    match digitVal c with
    | some d => parseNatAux cs (acc * 10 + d)
    | none => none

/-- A nonempty all-digit character list as a natural number. -/
def parseNat (cs : List Char) : Option Nat :=
  if cs.isEmpty then none else parseNatAux cs 0

/-- Digits, optionally a decimal point and more digits, as a rational. -/
def parseUnsigned (cs : List Char) : Option ℚ :=
  match chSplit '.' cs with
  | [ip] => (parseNat ip).map (fun n => (n : ℚ))
  | [ip, fp] => do
      let n ← parseNat ip
      let f ← parseNat fp
      pure ((n : ℚ) + (f : ℚ) / (10 : ℚ) ^ fp.length)
  | _ => none

/-- Numeric text as the CSV reader's type inference accepts it: an optional
minus sign, then digits with an optional fractional part. -/
def parseNumeric (cs : List Char) : Option ℚ :=
  match cs with
  | '-' :: rest => (parseUnsigned rest).map Neg.neg
  | _ => parseUnsigned cs

/-- Date parse for the standard layout (`pd.to_datetime` on text): an ISO
yyyy-mm-dd date; the round trip through the civil conversion rejects
impossible dates. -/
def parseDateISO (s : String) : Option Int :=
  match chSplit '-' s.toList with
  | [ys, ms, ds] => do
      let y ← parseNat ys
      let m ← parseNat ms
      let d ← parseNat ds
      let days := daysFromCivil (y : Int) m d
      if civilFromDays days = ((y : Int), m, d) then some days else none
  | _ => none

/-- One field of a delimiter-separated line as `read_csv` stores it: empty
text is missing, numeric text is inferred as a number, the rest stays text. -/
def parseCell (cs : List Char) : Cell :=
  if cs.isEmpty then Cell.missing
  else
    match parseNumeric cs with
    | some q => Cell.num q
    | none => Cell.str (String.mk cs)

/-- A parsed CSV: the header names and the data rows. -/
structure RawTable where
  header : List String
  rows : List (List Cell)
deriving DecidableEq

/-- Model of `pd.read_csv(..., sep=';', encoding='utf-8')`: fields split at
semicolons only; a leading byte-order mark is not stripped and stays glued to
the first header name. -/
def readCsvSemicolon (lines : List String) : RawTable :=
  match lines with
  | [] => ⟨[], []⟩
  | h :: rest =>
      ⟨(chSplit ';' h.toList).map String.mk,
       rest.map (fun l => (chSplit ';' l.toList).map parseCell)⟩

/-- A logical table rendered as delimiter-separated text lines. -/
def encodeLines (sep : Char) (tbl : List (List String)) : List String :=
  tbl.map (fun fields => String.mk (List.intercalate [sep] (fields.map String.toList)))

/-- The same text with a leading utf-8 byte-order mark. -/
def withBom : List String → List String
  | [] => []
  | l :: ls => String.mk ('\uFEFF' :: l.toList) :: ls

/-- Rows under `df.dropna(how='all')` removed: a row whose every field (over
the header's width) is missing is dropped. -/
def dropnaRows (ncols : Nat) (rows : List (List Cell)) : List (List Cell) :=
  rows.filter (fun r => !((List.range ncols).all (fun i => cellIsMissing (getCell r i))))

/-- The table after the `dropna(how='all')` cleaning step of load_data. -/
def dropnaTable (t : RawTable) : RawTable :=
  ⟨t.header, dropnaRows t.header.length t.rows⟩

/-- Rows the legacy-export handler works on: the metadata filter of line 59
(first field present and not the text `fecha`) followed by the numeric filter
of line 62 (first field coerces to a number). An all-missing row fails the
first filter, so the handler sees the same rows with or without the earlier
`dropna(how='all')` step (proved below for a nonempty header). -/
def userDataRows (t : RawTable) : List (List Cell) :=
  (t.rows.filter
    (fun r => !cellIsMissing (getCell r 0) && !(getCell r 0 == Cell.str "fecha"))).filter
    (fun r => (cellToVal (getCell r 0)).isSome)

/-- Column `j` of a row list. -/
def colAt (rows : List (List Cell)) (j : Nat) : List Cell :=
  rows.map (fun r => getCell r j)

/-- Maximum of a list of rationals, none when the list is empty
(`Series.max` after dropping missing values). -/
def listMax : List ℚ → Option ℚ
  | [] => none
  | x :: xs => some (xs.foldl max x)

/-- The scan body of lines 74-75: the column coerced with `to_numeric` has
some present value and its maximum exceeds 10. -/
def colPasses (col : List Cell) : Bool :=
  !(col.filterMap cellToVal).isEmpty &&
    (match listMax (col.filterMap cellToVal) with
     | some m => decide (10 < m)
     | none => false)

/-- First index satisfying a test: the left-to-right scan of line 73, and the
first-occurrence convention of `Series.idxmax`. -/
def ffind {α : Type} (p : α → Bool) : List α → Option Nat
  | [] => none
  | a :: l => if p a then some 0 else (ffind p l).map (· + 1)

/-- The precipitation-column scan of lines 72-77: the first column, in header
order, whose coerced values have a maximum above 10, over the rows the legacy
handler extracts. -/
def precipColOf (t : RawTable) : Option Nat :=
  ffind colPasses ((List.range t.header.length).map (colAt (userDataRows t)))

/-- Line 87, `pd.to_datetime(dates_excel - 25569, unit='D',
origin='1900-01-01')`: the produced timestamp, counted in days since
1970-01-01, is the serial minus 25569 plus the (negative) day count of the
1900-01-01 origin. -/
def codeExcelDays (s : ℚ) : ℚ := (s - 25569) + (daysFromCivil 1900 1 1 : ℚ)

/-- A canonical row before the derived column: timestamp (days since
1970-01-01; none is NaT), per-period displacement and precipitation (none is
NaN). -/
structure PRow where
  date : Option ℚ
  disp : Option ℚ
  precip : Option ℚ
deriving DecidableEq

instance : Inhabited PRow := ⟨⟨none, none, none⟩⟩

/-- A canonical row with the derived Cumulative_Displacement column. -/
structure CRow where
  date : Option ℚ
  disp : Option ℚ
  precip : Option ℚ
  cum : Option ℚ
deriving DecidableEq

instance : Inhabited CRow := ⟨⟨none, none, none, none⟩⟩

/-- process_user_format (lines 55-103): keep the rows whose first field is a
number, scan for the precipitation column, take column 1 as displacement,
convert the Excel serial dates, and drop rows with a missing value
(`clean_df.dropna()`). Each `st.error` text followed by `return None` is an
error result; a header too short for `columns[1]` raises and lands in the
handler's except clause. -/
def processUserFormat (t : RawTable) : Except String (List PRow) :=
  let nrows := userDataRows t
  if nrows.isEmpty then Except.error "No se encontraron datos numericos validos"
  else
    match precipColOf t with
    | none => Except.error "No se pudo identificar la columna de precipitacion"
    | some j =>
        if t.header.length < 2 then Except.error "Error procesando formato del usuario"
        else
          Except.ok (nrows.filterMap (fun r => do
            let s ← cellToVal (getCell r 0)
            let dv ← cellToVal (getCell r 1)
            let pv ← cellToVal (getCell r j)
            pure ⟨some (codeExcelDays s), some dv, some pv⟩))

/-- Index of a named column (first occurrence, as pandas column lookup). -/
def idxOfName (hs : List String) (name : String) : Nat :=
  (ffind (fun h => h == name) hs).getD 0

/-- `pd.to_datetime` on one standard-layout Date cell: missing becomes NaT,
a number is nanoseconds since the epoch, text must parse as a date or the
call raises. -/
def toDatetimeCell : Cell → Except String (Option ℚ)
  | Cell.missing => Except.ok none
  | Cell.num q => Except.ok (some (q / 86400000000000))
  | Cell.str s =>
      match parseDateISO s with
      | some d => Except.ok (some (d : ℚ))
      | none => Except.error "Error procesando formato estandar"

/-- Row extraction of the standard path: parse the Date column (the whole
load fails on the first unparsable date, as `pd.to_datetime` raises), read
the value columns in place. -/
def mapPRows (di xi pj : Nat) : List (List Cell) → Except String (List PRow)
  | [] => Except.ok []
  | r :: rs => do
      let d ← toDatetimeCell (getCell r di)
      let rest ← mapPRows di xi pj rs
      Except.ok (⟨d, cellToVal (getCell r xi), cellToVal (getCell r pj)⟩ :: rest)

/-- process_standard_format (lines 105-121): requires the exact column names
Date, Displacement and Precipitation, then parses Date in place. -/
def processStandardFormat (t : RawTable) : Except String (List PRow) :=
  if "Date" ∈ t.header ∧ "Displacement" ∈ t.header ∧ "Precipitation" ∈ t.header then
    mapPRows (idxOfName t.header "Date") (idxOfName t.header "Displacement")
      (idxOfName t.header "Precipitation") t.rows
  else Except.error "El archivo debe contener las columnas Date, Displacement y Precipitation"

/-- Order used by `df.sort_values('Date')`: valid timestamps ascending,
missing timestamps (NaT) placed last (`na_position='last'`). -/
def dateLE : Option ℚ → Option ℚ → Bool
  | some a, some b => decide (a ≤ b)
  | some _, none => true
  | none, none => true
  | none, some _ => false

/-- The sort key relation on rows. -/
def rowLE (a b : PRow) : Prop := dateLE a.date b.date = true

instance : DecidableRel rowLE := fun a b => Bool.decEq (dateLE a.date b.date) true

/-- `df['Displacement'].cumsum()` zipped back onto the sorted rows: pandas
skips missing values, keeping NaN at the missing positions while the running
sum continues past them. -/
def addCum (acc : ℚ) : List PRow → List CRow
  | [] => []
  | r :: rs =>
    match r.disp with
    | none => ⟨r.date, r.disp, r.precip, none⟩ :: addCum acc rs
    | some v => ⟨r.date, r.disp, r.precip, some (acc + v)⟩ :: addCum (acc + v) rs

/-- load_data (lines 24-53): read (already modelled by the caller), drop
all-missing rows, dispatch on whether a column is named `fecha`, sort by
Date, add the cumulative column. An error anywhere gives no table. -/
def loadData (t : RawTable) : Except String (List CRow) :=
  match (if "fecha" ∈ (dropnaTable t).header then processUserFormat (dropnaTable t)
         else processStandardFormat (dropnaTable t)) with
  | Except.error e => Except.error e
  | Except.ok prows => Except.ok (addCum 0 (List.insertionSort rowLE prows))

/-- Full pipeline from raw text lines. -/
def loadCsv (lines : List String) : Except String (List CRow) :=
  loadData (readCsvSemicolon lines)

/-- The date-range filter of line 257: keep the rows whose calendar date
(`.dt.date`, the floor of the timestamp) lies in the inclusive range; a NaT
timestamp fails both comparisons and is dropped. -/
def filterByDate (startD endD : Int) (df : List CRow) : List CRow :=
  df.filter (fun r =>
    match r.date with
    | some d => decide (startD ≤ Rat.floor d) && decide (Rat.floor d ≤ endD)
    | none => false)

/-- Rows of a view without the derived column. -/
def stripCum (df : List CRow) : List PRow :=
  df.map (fun r => ⟨r.date, r.disp, r.precip⟩)

/-- Modelled from the spec: the derived column recomputed over a row
sequence, which the spec's invariant demands of every new view; the code has
no such recomputation, so this definition follows the spec's words for
comparison. -/
def recomputeCum (df : List CRow) : List CRow := addCum 0 (stripCum df)

/-- Mean with skipna: none (NaN) when no value is present. -/
def meanOpt (xs : List (Option ℚ)) : Option ℚ :=
  let vs := xs.filterMap id
  if vs.isEmpty then none else some (vs.sum / (vs.length : ℚ))

/-- Sum with skipna: pandas sums an all-missing column to 0. -/
def sumOpt (xs : List (Option ℚ)) : ℚ := (xs.filterMap id).sum

/-- Max with skipna: none (NaN) when no value is present. -/
def maxOpt (xs : List (Option ℚ)) : Option ℚ := listMax (xs.filterMap id)

/-- `Series.idxmax`: the first position holding the maximum present value;
fails when no value is present, as the code's `df.loc[...idxmax(), 'Date']`
lookup then does. -/
def idxmaxOpt (xs : List (Option ℚ)) : Option Nat := do
  let m ← listMax (xs.filterMap id)
  ffind (fun x => x == some m) xs

/-- The nine entries of calculate_statistics (lines 182-195); the date
entries are the `strftime('%Y-%m-%d')` result as a calendar triple. -/
structure Stats where
  totalDisp : Option ℚ
  meanDisp : Option ℚ
  meanVelocity : Option ℚ
  totalPrecip : ℚ
  meanPrecip : Option ℚ
  maxDisp : Option ℚ
  maxPrecip : Option ℚ
  dateMaxDisp : Int × Nat × Nat
  dateMaxPrecip : Int × Nat × Nat
deriving DecidableEq

/-- calculate_statistics: defined when the table has a last row, both idxmax
lookups succeed, and the rows they select carry a timestamp for strftime;
mean, sum and max never fail (they give NaN, kept here as none). -/
def calculateStatistics (df : List CRow) : Option Stats := do
  let lastRow ← df.getLast?
  let i ← idxmaxOpt (df.map (fun r => r.disp))
  let j ← idxmaxOpt (df.map (fun r => r.precip))
  let di ← (df.getD i default).date
  let dj ← (df.getD j default).date
  pure ⟨lastRow.cum,
        meanOpt (df.map (fun r => r.disp)),
        (meanOpt (df.map (fun r => r.disp))).map (fun x => x / 30),
        sumOpt (df.map (fun r => r.precip)),
        meanOpt (df.map (fun r => r.precip)),
        maxOpt (df.map (fun r => r.disp)),
        maxOpt (df.map (fun r => r.precip)),
        civilFromDays (Rat.floor di),
        civilFromDays (Rat.floor dj)⟩

/-- Missing-propagating addition (NaN plus anything is NaN). -/
def oadd : Option ℚ → Option ℚ → Option ℚ
  | some a, some b => some (a + b)
  | _, _ => none

/-- Modelled from the spec: the Date Normalizer formula for Layout B —
subtract 25569 from the serial and treat the result as days since
1970-01-01 UTC. The code's own conversion is codeExcelDays; this definition
follows the spec's words for comparison. -/
def specExcelDays (s : ℚ) : ℚ := s - 25569

/-- Modelled from the spec: `rate_of_change[i]` per its section 4.4 — the sum
over displacement series of the step difference, divided by the series count
(one series here) and by the elapsed days; undefined (skipped) at i = 0. The
code computes no such column; this definition follows the spec's words for
comparison. -/
def specRateOfChange : List CRow → List (Option ℚ)
  | [] => []
  | r :: rs =>
      none :: ((r :: rs).zip rs).map (fun p => do
        let va ← p.1.disp
        let vb ← p.2.disp
        let da ← p.1.date
        let db ← p.2.date
        pure (((vb - va) / 1) / (db - da)))

/-- Decidable equality on load results, for concrete evaluation. -/
instance {e a : Type} [DecidableEq e] [DecidableEq a] : DecidableEq (Except e a) := fun x y =>
  match x, y with
  | Except.error u, Except.error v =>
      if h : u = v then isTrue (congrArg Except.error h)
      else isFalse (fun he => h (Except.error.inj he))
  | Except.ok u, Except.ok v =>
      if h : u = v then isTrue (congrArg Except.ok h)
      else isFalse (fun he => h (Except.ok.inj he))
  | Except.error _, Except.ok _ => isFalse (fun he => Except.noConfusion he)
  | Except.ok _, Except.error _ => isFalse (fun he => Except.noConfusion he)

/-! Concrete inputs and expected outputs used by the claim theorems below.
Day numbers are counts since 1970-01-01: 2023-01-01 is day 19358. -/

/-- The Layout A example row of the spec (fecha=01/01/2023, 10=1.2,
rainfall(mm)=45). -/
def tC3ex : RawTable :=
  ⟨["fecha", "10", "rainfall(mm)"], [[Cell.str "01/01/2023", Cell.num (6/5), Cell.num 45]]⟩

/-- A tidy table whose precipitation column is named rainfall (mm) instead of
Precipitation. -/
def tC3w : RawTable := ⟨["Date", "rainfall (mm)"], []⟩

/-- Three rows with a large displacement step over one day followed by a small
step over ten days. -/
def tC4 : RawTable :=
  readCsvSemicolon
    ["Date;Displacement;Precipitation", "2023-01-01;0;1", "2023-01-02;5;2", "2023-01-12;6;3"]

/-- The canonical table the pipeline produces for tC4. -/
def dfC4 : List CRow :=
  [⟨some 19358, some 0, some 1, some 0⟩, ⟨some 19359, some 5, some 2, some 5⟩,
   ⟨some 19369, some 6, some 3, some 11⟩]

/-- The statistics of dfC4. -/
def sC4 : Stats :=
  ⟨some 11, some (11/3), some (11/90), 6, some 2, some 6, some 3, (2023, 1, 12), (2023, 1, 12)⟩

/-- A legacy-layout file whose data rows are not numeric. -/
def tC5 : RawTable := ⟨["fecha", "x"], [[Cell.str "meta", Cell.str "m2"]]⟩

/-- Two tidy rows. -/
def tC6 : RawTable :=
  readCsvSemicolon ["Date;Displacement;Precipitation", "2023-01-01;1;5", "2023-01-02;2;6"]

/-- The canonical table the pipeline produces for tC6. -/
def dfC6 : List CRow :=
  [⟨some 19358, some 1, some 5, some 1⟩, ⟨some 19359, some 2, some 6, some 3⟩]

/-- The second row of dfC6. -/
def rC6 : CRow := ⟨some 19359, some 2, some 6, some 3⟩

/-- Two tidy rows given out of date order. -/
def tC7 : RawTable :=
  readCsvSemicolon ["Date;Displacement;Precipitation", "2023-03-05;2;8", "2023-03-01;1;4"]

/-- The canonical table the pipeline produces for tC7: sorted ascending. -/
def dfC7 : List CRow :=
  [⟨some 19417, some 1, some 4, some 1⟩, ⟨some 19421, some 2, some 8, some 3⟩]

/-- Three tidy rows with a missing displacement in the middle. -/
def tC8 : RawTable :=
  readCsvSemicolon
    ["Date;Displacement;Precipitation", "2023-01-01;1;5", "2023-01-02;;6", "2023-01-03;2;7"]

/-- The canonical table the pipeline produces for tC8: the cumulative sum
skips the missing value. -/
def dfC8 : List CRow :=
  [⟨some 19358, some 1, some 5, some 1⟩, ⟨some 19359, none, some 6, none⟩,
   ⟨some 19360, some 2, some 7, some 3⟩]

/-- Two clean tidy rows. -/
def tC8w : RawTable :=
  readCsvSemicolon ["Date;Displacement;Precipitation", "2023-02-01;1;5", "2023-02-02;2;6"]

/-- The canonical table the pipeline produces for tC8w. -/
def dfC8w : List CRow :=
  [⟨some 19389, some 1, some 5, some 1⟩, ⟨some 19390, some 2, some 6, some 3⟩]

/-- A one-row logical table in the standard layout, to be serialized with
different delimiters. -/
def tblC9 : List (List String) :=
  [["Date", "Displacement", "Precipitation"], ["2023-01-01", "1", "2"]]

/-- The canonical table of tblC9 under the semicolon encoding. -/
def dfC9 : List CRow := [⟨some 19358, some 1, some 2, some 1⟩]

/-- One tidy row whose displacement field is empty. -/
def tC10 : RawTable := readCsvSemicolon ["Date;Displacement;Precipitation", "2023-01-01;;5"]

/-- The canonical table the pipeline produces for tC10: one row, all
displacement values missing. -/
def dfC10 : List CRow := [⟨some 19358, none, some 5, none⟩]

/-! Helper lemmas. -/

theorem ffind_eq_some_iff {α : Type} (p : α → Bool) (d : α) :
    ∀ (l : List α) (i : Nat),
      ffind p l = some i ↔
        i < l.length ∧ p (l.getD i d) = true ∧ ∀ k, k < i → p (l.getD k d) = false := by
  intro l
  induction l with
  | nil => intro i; simp [ffind]
  | cons a l ih =>
    intro i
    by_cases ha : p a = true
    · have hred : ffind p (a :: l) = if p a then some 0 else (ffind p l).map (· + 1) := rfl
      rw [hred, if_pos ha]
      cases i with
      | zero =>
        simp only [Option.some.injEq, List.length_cons, List.getD_cons_zero, true_iff]
        exact ⟨Nat.succ_pos _, ha, fun k hk => absurd hk (Nat.not_lt_zero k)⟩
      | succ j =>
        simp only [Option.some.injEq, List.length_cons]
        constructor
        · intro h; omega
        · rintro ⟨-, -, hltk⟩
          have h0 := hltk 0 (Nat.succ_pos j)
          rw [List.getD_cons_zero, ha] at h0
          cases h0
    · have hb : p a = false := by simpa using ha
      have hred : ffind p (a :: l) = if p a then some 0 else (ffind p l).map (· + 1) := rfl
      rw [hred, if_neg (by simp [hb])]
      cases i with
      | zero =>
        simp only [Option.map_eq_some']
        constructor
        · rintro ⟨j, -, hj⟩; exact absurd hj (Nat.succ_ne_zero j)
        · rintro ⟨-, h0, -⟩
          rw [List.getD_cons_zero, hb] at h0
          cases h0
      | succ j =>
        simp only [Option.map_eq_some']
        constructor
        · rintro ⟨j2, hj2, he⟩
          have hj3 : ffind p l = some j := by
            have hee : j2 = j := by omega
            rw [hee] at hj2; exact hj2
          rcases (ih j).mp hj3 with ⟨h1, h2, h3⟩
          refine ⟨by simpa using Nat.succ_lt_succ h1,
            by rw [List.getD_cons_succ]; exact h2, ?_⟩
          intro k hk
          cases k with
          | zero => rw [List.getD_cons_zero]; exact hb
          | succ k2 => rw [List.getD_cons_succ]; exact h3 k2 (by omega)
        · rintro ⟨h1, h2, h3⟩
          refine ⟨j, (ih j).mpr ⟨by simpa using h1,
            by rw [List.getD_cons_succ] at h2; exact h2, ?_⟩, rfl⟩
          intro k hk
          have := h3 (k + 1) (by omega)
          rw [List.getD_cons_succ] at this
          exact this

theorem ffind_isSome_of_mem {α : Type} {p : α → Bool} {l : List α} {a : α}
    (hm : a ∈ l) (hp : p a = true) : (ffind p l).isSome = true := by
  induction l with
  | nil => cases hm
  | cons b l ih =>
    by_cases hb : p b = true
    · have hred : ffind p (b :: l) = if p b then some 0 else (ffind p l).map (· + 1) := rfl
      rw [hred, if_pos hb]
      simp
    · have hbf : p b = false := by simpa using hb
      rcases List.mem_cons.mp hm with he | ht
      · subst he; rw [hp] at hbf; cases hbf
      · have hred : ffind p (b :: l) = if p b then some 0 else (ffind p l).map (· + 1) := rfl
        rw [hred, if_neg (by simp [hbf])]
        cases ho : ffind p l with
        | none => rw [ho] at ih; simpa using ih ht
        | some j => simp

theorem le_foldl_max (xs : List ℚ) : ∀ a : ℚ, a ≤ xs.foldl max a := by
  induction xs with
  | nil => intro a; simp
  | cons y ys ih =>
    intro a
    calc a ≤ max a y := le_max_left a y
    _ ≤ ys.foldl max (max a y) := ih (max a y)

theorem foldl_max_ge_mem (xs : List ℚ) :
    ∀ (a x : ℚ), x ∈ xs → x ≤ xs.foldl max a := by
  induction xs with
  | nil => intro a x hx; cases hx
  | cons y ys ih =>
    intro a x hx
    rcases List.mem_cons.mp hx with he | ht
    · subst he
      calc x ≤ max a x := le_max_right a x
      _ ≤ ys.foldl max (max a x) := le_foldl_max ys (max a x)
    · exact ih (max a y) x ht

theorem foldl_max_mem (xs : List ℚ) : ∀ a : ℚ, xs.foldl max a ∈ a :: xs := by
  induction xs with
  | nil => intro a; simp
  | cons y ys ih =>
    intro a
    have h := ih (max a y)
    rcases List.mem_cons.mp h with he | ht
    · rcases max_choice a y with h1 | h1 <;> rw [h1] at he <;> rw [List.foldl_cons, h1, he]
      · exact List.mem_cons_self a (y :: ys)
      · exact List.mem_cons.mpr (Or.inr (List.mem_cons_self y ys))
    · rw [List.foldl_cons]
      exact List.mem_cons.mpr (Or.inr (List.mem_cons.mpr (Or.inr ht)))

theorem listMax_mem {l : List ℚ} {m : ℚ} (h : listMax l = some m) : m ∈ l := by
  cases l with
  | nil => simp [listMax] at h
  | cons x xs =>
    simp only [listMax, Option.some.injEq] at h
    subst h
    exact foldl_max_mem xs x

theorem le_listMax {l : List ℚ} {m x : ℚ} (hx : x ∈ l) (h : listMax l = some m) : x ≤ m := by
  cases l with
  | nil => cases hx
  | cons y ys =>
    simp only [listMax, Option.some.injEq] at h
    subst h
    rcases List.mem_cons.mp hx with he | ht
    · subst he; exact le_foldl_max ys x
    · exact foldl_max_ge_mem ys y x ht

theorem listMax_eq_none_iff {l : List ℚ} : listMax l = none ↔ l = [] := by
  cases l <;> simp [listMax]

theorem listMax_isSome_of_ne_nil {l : List ℚ} (h : l ≠ []) : (listMax l).isSome = true := by
  cases l with
  | nil => cases h rfl
  | cons x xs => simp [listMax]

theorem colPasses_iff (col : List Cell) :
    colPasses col = true ↔ ∃ c ∈ col, ∃ v, cellToVal c = some v ∧ 10 < v := by
  unfold colPasses
  cases hv : listMax (col.filterMap cellToVal) with
  | none =>
    have hnil : col.filterMap cellToVal = [] := listMax_eq_none_iff.mp hv
    simp only [hnil, List.isEmpty_nil, Bool.not_true, Bool.false_and, Bool.false_eq_true,
      false_iff]
    rintro ⟨c, hc, v, hcv, -⟩
    have : v ∈ col.filterMap cellToVal := List.mem_filterMap.mpr ⟨c, hc, hcv⟩
    rw [hnil] at this
    cases this
  | some m =>
    have hne : col.filterMap cellToVal ≠ [] := by
      intro h0
      rw [h0] at hv
      simp [listMax] at hv
    have hemp : (col.filterMap cellToVal).isEmpty = false := by
      cases hcol : col.filterMap cellToVal with
      | nil => rw [hcol] at hne; cases hne rfl
      | cons a l => simp
    rw [hemp]
    simp only [Bool.not_false, Bool.true_and]
    constructor
    · intro h
      have h10 : 10 < m := of_decide_eq_true h
      have hm : m ∈ col.filterMap cellToVal := listMax_mem hv
      rcases List.mem_filterMap.mp hm with ⟨c, hc, hcv⟩
      exact ⟨c, hc, m, hcv, h10⟩
    · rintro ⟨c, hc, v, hcv, h10⟩
      have hvm : v ∈ col.filterMap cellToVal := List.mem_filterMap.mpr ⟨c, hc, hcv⟩
      exact decide_eq_true (lt_of_lt_of_le h10 (le_listMax hvm hv))

theorem map_range_getD {β : Type} (f : Nat → β) (n k : Nat) (d : β) (hk : k < n) :
    ((List.range n).map f).getD k d = f k := by
  rw [List.getD_eq_getElem _ _ (by simpa using hk), List.getElem_map, List.getElem_range]

theorem map_getD {α β : Type} (l : List α) (f : α → β) (k : Nat) (d : α) (d2 : β)
    (hk : k < l.length) : (l.map f).getD k d2 = f (l.getD k d) := by
  rw [List.getD_eq_getElem _ _ (by simpa using hk), List.getElem_map,
    List.getD_eq_getElem _ _ hk]

theorem idxmaxOpt_isSome {xs : List (Option ℚ)} (h : ∃ x ∈ xs, x.isSome = true) :
    (idxmaxOpt xs).isSome = true := by
  rcases h with ⟨x, hx, hs⟩
  rcases Option.isSome_iff_exists.mp hs with ⟨v, hv⟩
  subst hv
  have hvm : v ∈ xs.filterMap id := List.mem_filterMap.mpr ⟨some v, hx, rfl⟩
  have hne : xs.filterMap id ≠ [] := by
    intro h0; rw [h0] at hvm; cases hvm
  rcases Option.isSome_iff_exists.mp (listMax_isSome_of_ne_nil hne) with ⟨m, hm⟩
  have hmm : m ∈ xs.filterMap id := listMax_mem hm
  rcases List.mem_filterMap.mp hmm with ⟨c, hc, hcm⟩
  have hcm2 : c = some m := by cases c with
    | none => cases hcm
    | some w => simpa using hcm
  subst hcm2
  have hff := ffind_isSome_of_mem (p := fun x => x == some m) hc (by simp)
  rcases Option.isSome_iff_exists.mp hff with ⟨i, hi⟩
  unfold idxmaxOpt
  rw [hm]
  simp only [Option.bind_eq_bind, Option.some_bind]
  rw [hi]
  rfl

theorem idxmaxOpt_spec {xs : List (Option ℚ)} {i : Nat} (h : idxmaxOpt xs = some i) :
    ∃ m : ℚ, i < xs.length ∧ xs.getD i none = some m ∧
      (∀ v ∈ xs.filterMap id, v ≤ m) ∧ ∀ k, k < i → xs.getD k none ≠ some m := by
  unfold idxmaxOpt at h
  cases hm : listMax (xs.filterMap id) with
  | none => rw [hm] at h; cases h
  | some m =>
    rw [hm] at h
    simp only [Option.bind_eq_bind, Option.some_bind] at h
    rcases (ffind_eq_some_iff (fun x => x == some m) none xs i).mp h with ⟨h1, h2, h3⟩
    refine ⟨m, h1, by simpa using h2, fun v hv => le_listMax hv hm, ?_⟩
    intro k hk he
    have := h3 k hk
    rw [he] at this
    simp at this

theorem addCum_map_date (acc : ℚ) (l : List PRow) :
    (addCum acc l).map (fun r => r.date) = l.map (fun r => r.date) := by
  induction l generalizing acc with
  | nil => rfl
  | cons r rs ih =>
    cases hd : r.disp with
    | none => simp [addCum, hd, ih]
    | some v => simp [addCum, hd, ih]

theorem addCum_map_disp (acc : ℚ) (l : List PRow) :
    (addCum acc l).map (fun r => r.disp) = l.map (fun r => r.disp) := by
  induction l generalizing acc with
  | nil => rfl
  | cons r rs ih =>
    cases hd : r.disp with
    | none => simp [addCum, hd, ih]
    | some v => simp [addCum, hd, ih]

theorem addCum_length (acc : ℚ) (l : List PRow) : (addCum acc l).length = l.length := by
  induction l generalizing acc with
  | nil => rfl
  | cons r rs ih =>
    cases hd : r.disp with
    | none => simp [addCum, hd, ih]
    | some v => simp [addCum, hd, ih]

theorem addCum_head (acc : ℚ) (l : List PRow) :
    ((addCum acc l).getD 0 default).cum =
      (((addCum acc l).getD 0 default).disp).map (fun v => acc + v) := by
  cases l with
  | nil => rfl
  | cons r rs =>
    cases hd : r.disp with
    | none => simp [addCum, hd]
    | some v => simp [addCum, hd]

theorem addCum_rec (l : List PRow) :
    ∀ (acc : ℚ), (∀ r ∈ addCum acc l, r.disp.isSome = true) →
      ∀ i : Nat, i + 1 < (addCum acc l).length →
        ((addCum acc l).getD (i + 1) default).cum =
          oadd (((addCum acc l).getD i default).cum)
            (((addCum acc l).getD (i + 1) default).disp) := by
  induction l with
  | nil => intro acc h i hi; simp [addCum] at hi
  | cons r rs ih =>
    intro acc h i hi
    cases hd : r.disp with
    | none =>
      have hmem : (⟨r.date, r.disp, r.precip, none⟩ : CRow) ∈ addCum acc (r :: rs) := by
        simp [addCum, hd]
      have := h _ hmem
      rw [hd] at this
      cases this
    | some v =>
      have hexp : addCum acc (r :: rs) =
          ⟨r.date, r.disp, r.precip, some (acc + v)⟩ :: addCum (acc + v) rs := by
        simp [addCum, hd]
      rw [hexp] at hi h ⊢
      cases i with
      | zero =>
        simp only [List.getD_cons_succ, List.getD_cons_zero]
        have hlen : 0 < (addCum (acc + v) rs).length := by
          simp only [List.length_cons] at hi; omega
        have hhead := addCum_head (acc + v) rs
        have hmem0 : (addCum (acc + v) rs).getD 0 default ∈ addCum (acc + v) rs := by
          rw [List.getD_eq_getElem _ _ hlen]
          exact List.getElem_mem hlen
        have hds := h _ (List.mem_cons.mpr (Or.inr hmem0))
        rcases Option.isSome_iff_exists.mp hds with ⟨w, hw⟩
        rw [hhead, hw]
        simp [oadd, add_assoc]
      | succ i2 =>
        simp only [List.getD_cons_succ]
        refine ih (acc + v) (fun x hx => h x (List.mem_cons.mpr (Or.inr hx))) i2 ?_
        simp only [List.length_cons] at hi
        omega

theorem dateLE_total (a b : Option ℚ) : dateLE a b = true ∨ dateLE b a = true := by
  cases a with
  | none => cases b <;> simp [dateLE]
  | some x =>
    cases b with
    | none => simp [dateLE]
    | some y =>
      rcases le_total x y with h | h
      · exact Or.inl (by simp [dateLE, h])
      · exact Or.inr (by simp [dateLE, h])

theorem dateLE_trans {a b c : Option ℚ} (h1 : dateLE a b = true) (h2 : dateLE b c = true) :
    dateLE a c = true := by
  cases a with
  | none =>
    cases b with
    | none => cases c with
      | none => exact h2
      | some z => simp [dateLE] at h1 h2
    | some y => simp [dateLE] at h1
  | some x =>
    cases c with
    | none => simp [dateLE]
    | some z =>
      cases b with
      | none => simp [dateLE] at h2
      | some y =>
        simp only [dateLE, decide_eq_true_eq] at h1 h2 ⊢
        exact le_trans h1 h2

instance : IsTotal PRow rowLE := ⟨fun a b => dateLE_total a.date b.date⟩

instance : IsTrans PRow rowLE := ⟨fun _ _ _ h1 h2 => dateLE_trans h1 h2⟩

theorem userDataRows_dropna (t : RawTable) (h : t.header ≠ []) :
    userDataRows (dropnaTable t) = userDataRows t := by
  unfold userDataRows dropnaTable dropnaRows
  simp only
  rw [List.filter_filter, List.filter_filter, List.filter_filter]
  refine List.filter_congr ?_
  intro r hr
  cases hm : cellIsMissing (getCell r 0) with
  | true => simp [hm]
  | false =>
    have hall : ((List.range t.header.length).all
        (fun i => cellIsMissing (getCell r i))) = false := by
      refine List.all_eq_false.mpr ⟨0, ?_, by simp [hm]⟩
      simp only [List.mem_range]
      exact List.length_pos.mpr h
    simp [hm, hall]

theorem precipColOf_dropna (t : RawTable) (h : t.header ≠ []) :
    precipColOf (dropnaTable t) = precipColOf t := by
  unfold precipColOf
  rw [userDataRows_dropna t h]
  rfl

theorem loadData_ok_shape {t : RawTable} {df : List CRow}
    (h : loadData t = Except.ok df) :
    ∃ prows : List PRow, df = addCum 0 (List.insertionSort rowLE prows) := by
  unfold loadData at h
  cases hb : (if "fecha" ∈ (dropnaTable t).header then processUserFormat (dropnaTable t)
      else processStandardFormat (dropnaTable t)) with
  | error e =>
    rw [hb] at h
    simp at h
  | ok prows =>
    rw [hb] at h
    simp only [Except.ok.injEq] at h
    exact ⟨prows, h.symm⟩

theorem loadData_user_error (t : RawTable) (hf : "fecha" ∈ t.header)
    (h : userDataRows t = [] ∨ precipColOf t = none) :
    ∃ msg, loadData t = Except.error msg := by
  have hne : t.header ≠ [] := by
    intro h0; rw [h0] at hf; cases hf
  have hu : userDataRows (dropnaTable t) = userDataRows t := userDataRows_dropna t hne
  have hp : precipColOf (dropnaTable t) = precipColOf t := precipColOf_dropna t hne
  unfold loadData processUserFormat
  rw [show (dropnaTable t).header = t.header from rfl, if_pos hf, hu, hp]
  cases hemp : (userDataRows t).isEmpty with
  | true =>
    refine ⟨"No se encontraron datos numericos validos", ?_⟩
    simp only [hemp, if_true]
  | false =>
    rcases h with he | hn
    · rw [he] at hemp; simp at hemp
    · refine ⟨"No se pudo identificar la columna de precipitacion", ?_⟩
      simp only [hemp, hn, Bool.false_eq_true, if_false]

theorem loadData_std_error (t : RawTable) (hf : "fecha" ∉ t.header)
    (h : ¬("Date" ∈ t.header ∧ "Displacement" ∈ t.header ∧ "Precipitation" ∈ t.header)) :
    loadData t =
      Except.error "El archivo debe contener las columnas Date, Displacement y Precipitation" := by
  unfold loadData processStandardFormat
  rw [show (dropnaTable t).header = t.header from rfl, if_neg hf, if_neg h]

theorem loadData_single_col (t : RawTable) (hstr : String) (hh : t.header = [hstr])
    (hne : hstr ≠ "fecha") :
    loadData t =
      Except.error "El archivo debe contener las columnas Date, Displacement y Precipitation" := by
  refine loadData_std_error t ?_ ?_
  · rw [hh]
    simp only [List.mem_singleton]
    exact fun he => hne he.symm
  · rw [hh]
    simp only [List.mem_singleton]
    rintro ⟨h1, h2, -⟩
    rw [← h1] at h2
    exact absurd h2 (by decide)

/-! The claims. -/

/-- C1: on a Layout B (legacy-export) table, the detector selects as the
precipitation column exactly the first column, scanning left to right in
header order, holding some coerced numeric value that exceeds the threshold
10; the selection is fully characterized by this magnitude test and not by a
fixed position in the row. -/
theorem c1_precip_col_first_over_threshold (t : RawTable) (j : Nat) :
    precipColOf t = some j ↔
      j < t.header.length ∧
      (∃ r ∈ userDataRows t, ∃ v, cellToVal (getCell r j) = some v ∧ 10 < v) ∧
      ∀ k, k < j →
        ¬∃ r ∈ userDataRows t, ∃ v, cellToVal (getCell r k) = some v ∧ 10 < v := by
  have hcol : ∀ (k : Nat),
      ((∃ c ∈ colAt (userDataRows t) k, ∃ v, cellToVal c = some v ∧ 10 < v) ↔
        (∃ r ∈ userDataRows t, ∃ v, cellToVal (getCell r k) = some v ∧ 10 < v)) := by
    intro k
    constructor
    · rintro ⟨c, hc, hv⟩
      rcases List.mem_map.mp hc with ⟨r, hr, he⟩
      exact ⟨r, hr, he ▸ hv⟩
    · rintro ⟨r, hr, hv⟩
      exact ⟨getCell r k, List.mem_map.mpr ⟨r, hr, rfl⟩, hv⟩
  unfold precipColOf
  rw [ffind_eq_some_iff colPasses []]
  have hlen : ((List.range t.header.length).map (colAt (userDataRows t))).length =
      t.header.length := by simp
  constructor
  · rintro ⟨h1, h2, h3⟩
    rw [hlen] at h1
    rw [map_range_getD _ _ _ _ h1] at h2
    refine ⟨h1, (hcol j).mp ((colPasses_iff _).mp h2), ?_⟩
    intro k hk hex
    have hkn : k < t.header.length := lt_trans hk h1
    have hf := h3 k hk
    rw [map_range_getD _ _ _ _ hkn] at hf
    rw [(colPasses_iff _).mpr ((hcol k).mpr hex)] at hf
    cases hf
  · rintro ⟨h1, h2, h3⟩
    refine ⟨by rw [hlen]; exact h1, ?_, ?_⟩
    · rw [map_range_getD _ _ _ _ h1]
      exact (colPasses_iff _).mpr ((hcol j).mpr h2)
    · intro k hk
      rw [map_range_getD _ _ _ _ (lt_trans hk h1)]
      cases hcp : colPasses (colAt (userDataRows t) k) with
      | false => rfl
      | true => exact absurd ((hcol k).mp ((colPasses_iff _).mp hcp)) (h3 k hk)

/-- C2: the code anchors the converted serial at origin 1900-01-01 (line 87),
so serial 42338 comes out as 1945-11-30 — not 2015-12-01 as the program's own
preview documents; even the spec's formula (subtract 25569, days since
1970-01-01) would give 2015-11-30. -/
theorem c2_excel_serial_conversion :
    civilFromDays (Rat.floor (codeExcelDays 42338)) = (1945, 11, 30) ∧
    civilFromDays (Rat.floor (specExcelDays 42338)) = (2015, 11, 30) ∧
    ((1945, 11, 30) : Int × Nat × Nat) ≠ (2015, 12, 1) ∧
    ((2015, 11, 30) : Int × Nat × Nat) ≠ (2015, 12, 1) :=
  ⟨by decide, by decide, by decide, by decide⟩

/-- C3 counterexample: the spec's own Layout A example (fecha=01/01/2023,
10=1.2, rainfall(mm)=45) is routed to the legacy handler by its fecha column
and errors out, instead of producing the claimed canonical row. -/
theorem c3_layout_a_example_errors :
    loadData tC3ex = Except.error "No se encontraron datos numericos validos" := by decide

/-- C3 amended: an input without a fecha column is accepted only when its
header contains the exact names Date, Displacement and Precipitation; there
is no case-insensitive or rainfall-style name recognition, and no other
column is collected as a displacement series. -/
theorem c3_exact_names_required (t : RawTable) (hf : "fecha" ∉ t.header)
    (h : ¬("Date" ∈ t.header ∧ "Displacement" ∈ t.header ∧ "Precipitation" ∈ t.header)) :
    loadData t =
      Except.error "El archivo debe contener las columnas Date, Displacement y Precipitation" :=
  loadData_std_error t hf h

/-- C3 witness: a table whose precipitation column is named rainfall (mm) is
rejected. -/
theorem c3_witness :
    loadData tC3w =
      Except.error "El archivo debe contener las columnas Date, Displacement y Precipitation" :=
  c3_exact_names_required tC3w (by decide) (by decide)

/-- C4 counterexample: no rate_of_change column exists; the reported date of
greatest movement is the argmax of the per-period Displacement (2023-01-12
here), which differs from the argmax of the spec's rate_of_change formula
(2023-01-02, where 5 units move in one day). -/
theorem c4_reported_fastest_not_rate_argmax :
    loadData tC4 = Except.ok dfC4 ∧
    (calculateStatistics dfC4).map (fun s => s.dateMaxDisp) = some (2023, 1, 12) ∧
    idxmaxOpt (specRateOfChange dfC4) = some 1 ∧
    ((dfC4.getD 1 default).date).map (fun d => civilFromDays (Rat.floor d)) =
      some (2023, 1, 2) ∧
    ((2023, 1, 12) : Int × Nat × Nat) ≠ (2023, 1, 2) :=
  ⟨by decide, by decide, by decide, by decide, by decide⟩

/-- C4 amended: whenever the statistics are defined, the reported date of
greatest displacement is the timestamp of the first row attaining the maximum
present per-period Displacement value — not a rate-of-change argmax. -/
theorem c4_date_max_disp_characterized (df : List CRow) (s : Stats)
    (h : calculateStatistics df = some s) :
    ∃ (i : Nat) (m : ℚ),
      idxmaxOpt (df.map (fun r => r.disp)) = some i ∧ i < df.length ∧
      (df.getD i default).disp = some m ∧
      (∀ r ∈ df, ∀ v : ℚ, r.disp = some v → v ≤ m) ∧
      (∀ k, k < i → (df.getD k default).disp ≠ some m) ∧
      ∃ d : ℚ, (df.getD i default).date = some d ∧
        s.dateMaxDisp = civilFromDays (Rat.floor d) := by
  unfold calculateStatistics at h
  simp only [Option.bind_eq_bind, Option.bind_eq_some, Option.pure_def,
    Option.some.injEq] at h
  rcases h with ⟨lr, hlr, i, hi, j, hj, di, hdi, dj, hdj, hs⟩
  rcases idxmaxOpt_spec hi with ⟨m, hilen, hgetd, hle, hfirst⟩
  rw [List.length_map] at hilen
  rw [map_getD df (fun r => r.disp) i default none hilen] at hgetd
  refine ⟨i, m, hi, hilen, hgetd, ?_, ?_, di, hdi, ?_⟩
  · intro r hr v hv
    refine hle v (List.mem_filterMap.mpr ⟨some v, ?_, rfl⟩)
    exact List.mem_map.mpr ⟨r, hr, hv⟩
  · intro k hk
    have hkn : k < df.length := lt_trans hk hilen
    have := hfirst k hk
    rw [map_getD df (fun r => r.disp) k default none hkn] at this
    exact this
  · rw [← hs]

/-- C4 witness: the characterization instantiated on the statistics of the
concrete table dfC4. -/
theorem c4_witness :
    ∃ (i : Nat) (m : ℚ),
      idxmaxOpt (dfC4.map (fun r => r.disp)) = some i ∧ i < dfC4.length ∧
      (dfC4.getD i default).disp = some m ∧
      (∀ r ∈ dfC4, ∀ v : ℚ, r.disp = some v → v ≤ m) ∧
      (∀ k, k < i → (dfC4.getD k default).disp ≠ some m) ∧
      ∃ d : ℚ, (dfC4.getD i default).date = some d ∧
        sC4.dateMaxDisp = civilFromDays (Rat.floor d) :=
  c4_date_max_disp_characterized dfC4 sC4 (by decide)

/-- C5: when neither layout can be established — the legacy path finds no
numeric first column or no column clears the precipitation threshold, or the
standard path misses a required column — load_data reports an error and
produces no table. -/
theorem c5_detection_failure_gives_error (t : RawTable)
    (h : ("fecha" ∈ t.header ∧ (userDataRows t = [] ∨ precipColOf t = none)) ∨
      ("fecha" ∉ t.header ∧
        ¬("Date" ∈ t.header ∧ "Displacement" ∈ t.header ∧ "Precipitation" ∈ t.header))) :
    ∃ msg, loadData t = Except.error msg := by
  rcases h with ⟨hf, hu⟩ | ⟨hf, hr⟩
  · exact loadData_user_error t hf hu
  · exact ⟨_, loadData_std_error t hf hr⟩

/-- C5 witness: a fecha-headed file whose rows are not numeric is rejected. -/
theorem c5_witness : ∃ msg, loadData tC5 = Except.error msg :=
  c5_detection_failure_gives_error tC5 (Or.inl ⟨by decide, Or.inl (by decide)⟩)

/-- C6 counterexample: the date-range filter keeps the cumulative values the
full table carried — the one-row view shows 3, while recomputing the derived
column over the view gives 2 — so the derived column is stale with respect to
the filtered row sequence. -/
theorem c6_filter_keeps_stale_cumulative :
    loadData tC6 = Except.ok dfC6 ∧
    (filterByDate 19359 19359 dfC6).map (fun r => r.cum) = [some 3] ∧
    (recomputeCum (filterByDate 19359 19359 dfC6)).map (fun r => r.cum) = [some 2] ∧
    recomputeCum (filterByDate 19359 19359 dfC6) ≠ filterByDate 19359 19359 dfC6 :=
  ⟨by decide, by decide, by decide, by decide⟩

/-- C6 amended: the filter is a pure row selection — every row of a filtered
view, including its cumulative_displacement value, is a row of the original
table unchanged; derived columns are computed once at load and never
recomputed on filtering. -/
theorem c6_filter_preserves_rows (startD endD : Int) (df : List CRow) (r : CRow)
    (h : r ∈ filterByDate startD endD df) : r ∈ df :=
  List.mem_of_mem_filter h

/-- C6 witness: the surviving row of the filtered view of dfC6 is a row of
dfC6. -/
theorem c6_witness : rC6 ∈ dfC6 :=
  c6_filter_preserves_rows 19359 19359 dfC6 rC6 (by decide)

/-- C7: every table a successful load produces is sorted ascending by
timestamp — adjacent rows satisfy the sort order, missing timestamps last. -/
theorem c7_sorted_by_timestamp (t : RawTable) (df : List CRow)
    (h : loadData t = Except.ok df) :
    List.Chain' (fun a b : CRow => dateLE a.date b.date = true) df := by
  rcases loadData_ok_shape h with ⟨prows, he⟩
  subst he
  have hs : List.Sorted rowLE (List.insertionSort rowLE prows) :=
    List.sorted_insertionSort rowLE prows
  have hc : List.Chain' rowLE (List.insertionSort rowLE prows) := List.Pairwise.chain' hs
  have h1 : List.Chain' (fun a b : Option ℚ => dateLE a b = true)
      ((List.insertionSort rowLE prows).map (fun r => r.date)) :=
    (List.chain'_map (fun r : PRow => r.date)).mpr hc
  rw [← addCum_map_date 0] at h1
  exact (List.chain'_map (fun r : CRow => r.date)).mp h1

/-- C7 witness: the out-of-order input tC7 loads to the sorted table dfC7. -/
theorem c7_witness : List.Chain' (fun a b : CRow => dateLE a.date b.date = true) dfC7 :=
  c7_sorted_by_timestamp tC7 dfC7 (by decide)

/-- C8 counterexample: with a missing displacement at row 1, the pandas
cumulative sum skips the missing value — cum[2] is 3 while cum[1] +
displacement[2] is missing — so the claimed recurrence fails on this
canonical table. -/
theorem c8_cumsum_skips_missing :
    loadData tC8 = Except.ok dfC8 ∧
    (dfC8.getD 2 default).cum = some 3 ∧
    oadd ((dfC8.getD 1 default).cum) ((dfC8.getD 2 default).disp) = none ∧
    (dfC8.getD 2 default).cum ≠ oadd ((dfC8.getD 1 default).cum) ((dfC8.getD 2 default).disp) :=
  ⟨by decide, by decide, by decide, by decide⟩

/-- C8 amended: on every canonical table produced by a successful load in
which no displacement value is missing, the cumulative column satisfies
cum[0] = displacement[0] and cum[i] = cum[i-1] + displacement[i]. -/
theorem c8_cumulative_recurrence (t : RawTable) (df : List CRow)
    (h : loadData t = Except.ok df) (hall : ∀ r ∈ df, r.disp.isSome = true) :
    (df.getD 0 default).cum = (df.getD 0 default).disp ∧
    ∀ i : Nat, i + 1 < df.length →
      (df.getD (i + 1) default).cum =
        oadd ((df.getD i default).cum) ((df.getD (i + 1) default).disp) := by
  rcases loadData_ok_shape h with ⟨prows, he⟩
  subst he
  constructor
  · rw [addCum_head 0]
    cases hd : ((addCum 0 (List.insertionSort rowLE prows)).getD 0 default).disp <;>
      simp [hd]
  · intro i hi
    exact addCum_rec _ 0 hall i hi

/-- C8 witness: the recurrence instantiated on the clean two-row load tC8w. -/
theorem c8_witness :
    (dfC8w.getD 0 default).cum = (dfC8w.getD 0 default).disp ∧
    ∀ i : Nat, i + 1 < dfC8w.length →
      (dfC8w.getD (i + 1) default).cum =
        oadd ((dfC8w.getD i default).cum) ((dfC8w.getD (i + 1) default).disp) :=
  c8_cumulative_recurrence tC8w dfC8w (by decide) (by decide)

/-- C9 counterexample: the same logical table loads under the semicolon
encoding but is rejected under the comma encoding and under a leading
byte-order mark, so the delimiter and BOM variants do not yield the same
canonical table. -/
theorem c9_comma_bom_variants_rejected :
    loadCsv (encodeLines ';' tblC9) = Except.ok dfC9 ∧
    loadCsv (encodeLines ',' tblC9) =
      Except.error "El archivo debe contener las columnas Date, Displacement y Precipitation" ∧
    loadCsv (withBom (encodeLines ';' tblC9)) =
      Except.error "El archivo debe contener las columnas Date, Displacement y Precipitation" :=
  ⟨by decide, by decide, by decide⟩

/-- C9 amended: the loader splits fields at semicolons only and does not
strip a byte-order mark: any input whose header line contains no semicolon
(as a comma-delimited file) parses as a single column and — unless that
single column is named fecha — is always rejected; the BOM variant of the
standard header is likewise rejected. -/
theorem c9_semicolon_only :
    (∀ (hline : String) (rest : List String),
      chSplit ';' hline.toList = [hline.toList] → hline ≠ "fecha" →
      loadCsv (hline :: rest) =
        Except.error "El archivo debe contener las columnas Date, Displacement y Precipitation") ∧
    loadCsv (withBom (encodeLines ';' tblC9)) =
      Except.error "El archivo debe contener las columnas Date, Displacement y Precipitation" := by
  constructor
  · intro hline rest hsplit hne
    have hh : (readCsvSemicolon (hline :: rest)).header = [hline] := by
      show (chSplit ';' hline.toList).map String.mk = [hline]
      rw [hsplit]
      rfl
    exact loadData_single_col _ hline hh hne
  · decide

/-- C10 counterexample: a successful load can produce a nonempty table whose
displacement column is entirely missing; on it the idxmax lookup fails and
the statistics are undefined, so one row alone does not make all nine
statistics defined. -/
theorem c10_nonempty_all_missing_stats_fail :
    loadData tC10 = Except.ok dfC10 ∧ dfC10 ≠ [] ∧ calculateStatistics dfC10 = none :=
  ⟨by decide, by decide, by decide⟩

/-- C10 amended: the statistics calculator needs a nonempty view whose
displacement and precipitation columns each hold at least one present value
and whose rows carry timestamps; then all nine statistics are defined, and on
an empty view they are not. -/
theorem c10_stats_need_nonempty :
    (∀ df : List CRow, df ≠ [] →
      (∃ r ∈ df, r.disp.isSome = true) → (∃ r ∈ df, r.precip.isSome = true) →
      (∀ r ∈ df, r.date.isSome = true) →
      (calculateStatistics df).isSome = true) ∧
    calculateStatistics ([] : List CRow) = none := by
  constructor
  · intro df hne hd hp hdate
    rcases Option.isSome_iff_exists.mp (List.getLast?_isSome.mpr hne) with ⟨lr, hlr⟩
    have hd2 : ∃ x ∈ df.map (fun r => r.disp), x.isSome = true := by
      rcases hd with ⟨r, hr, hs⟩
      exact ⟨r.disp, List.mem_map.mpr ⟨r, hr, rfl⟩, hs⟩
    have hp2 : ∃ x ∈ df.map (fun r => r.precip), x.isSome = true := by
      rcases hp with ⟨r, hr, hs⟩
      exact ⟨r.precip, List.mem_map.mpr ⟨r, hr, rfl⟩, hs⟩
    rcases Option.isSome_iff_exists.mp (idxmaxOpt_isSome hd2) with ⟨i, hi⟩
    rcases Option.isSome_iff_exists.mp (idxmaxOpt_isSome hp2) with ⟨j, hj⟩
    have hilen : i < df.length := by
      rcases idxmaxOpt_spec hi with ⟨m, hlen, -⟩
      rw [List.length_map] at hlen
      exact hlen
    have hjlen : j < df.length := by
      rcases idxmaxOpt_spec hj with ⟨m, hlen, -⟩
      rw [List.length_map] at hlen
      exact hlen
    have hmi : df.getD i default ∈ df := by
      rw [List.getD_eq_getElem _ _ hilen]
      exact List.getElem_mem hilen
    have hmj : df.getD j default ∈ df := by
      rw [List.getD_eq_getElem _ _ hjlen]
      exact List.getElem_mem hjlen
    rcases Option.isSome_iff_exists.mp (hdate _ hmi) with ⟨di, hdi⟩
    rcases Option.isSome_iff_exists.mp (hdate _ hmj) with ⟨dj, hdj⟩
    unfold calculateStatistics
    rw [hlr, hi, hj]
    simp only [Option.bind_eq_bind, Option.some_bind]
    rw [hdi, hdj]
    rfl
  · rfl
